import Mathlib

/-!
Verification of the core logic of a static LLM-pricing explorer.

The source is a small browser app (app.js, plus two earlier iterations of
the same file).  The components embedded here are the ones with real
invariants:

* the price-record normalizer (`normalize`),
* the cost calculator (`calcCostWithCached`, `calcMonthlyRequests`),
* the catalog builder (dedup-by-key loop in `main`),
* the query engine (`applyFilterSort`: category filter, text filter,
  sort, top-N).

JavaScript values are modelled exactly where their quirks matter: a
string field that may be `undefined` is a `JStr`; the truthiness tests
done by `||`, `?:` and `if(...)` are spelled out; JSON numbers are
rationals (JSON cannot encode NaN or Infinity); `Infinity` produced by
`?? Number.POSITIVE_INFINITY` is the `inf` constructor of `JNum`.
`Array.prototype.sort` is required by ECMAScript to be stable, and a
stable sort under a consistent comparator has a unique result, so it is
embedded as `List.insertionSort` on the relation "comparator result is
not positive"; a comparator result of NaN is treated as 0 by the
ECMAScript SortCompare operation, which the comparator embeddings
reproduce directly.
-/

namespace LlmPricing

/-- A JavaScript value that is either a string or `undefined`. -/
inductive JStr where
  | undef : JStr
  | str : String → JStr
deriving DecidableEq

/-- JS truthiness of a string-or-undefined value: `undefined` and `""` are falsy. -/
def JStr.truthy : JStr → Bool
  | .undef => false
  | .str s => decide (s ≠ "")

/-- JS `a || b` on string-or-undefined values. -/
def JStr.jsOr (a b : JStr) : JStr := if a.truthy then a else b

/-- JS `a || d` where `d` is a non-empty string literal default (so the result is a string). -/
def JStr.orDefault (a : JStr) (d : String) : String :=
  match a with
  | .undef => d
  | .str s => if s = "" then d else s

/-- JS template-literal interpolation of a string-or-undefined value:
`undefined` prints as `"undefined"`. -/
def JStr.interp : JStr → String
  | .undef => "undefined"
  | .str s => s

/-- A JSON value as far as `typeof v === 'number'` can see it: a number
(JSON numbers are exact decimals, hence rationals; JSON cannot encode NaN),
or some present value of a non-numeric type. -/
inductive JVal where
  | jnum : ℚ → JVal
  | jnonnum : JVal
deriving DecidableEq

/-- A raw `pricing.standard.input`-style object; either field may be absent. -/
structure PriceObj where
  price_per_million_tokens : Option JVal
  currency : Option String
deriving DecidableEq

/-- A raw `pricing.standard` / `pricing.batch` object. -/
structure PricingSide where
  input : Option PriceObj
  output : Option PriceObj
deriving DecidableEq

/-- A raw `pricing` object. -/
structure Pricing where
  standard : Option PricingSide
  batch : Option PricingSide
deriving DecidableEq

/-- A raw provider record as found in the JSON price lists; every field may be
absent (`undefined`). -/
structure RawPriceRecord where
  provider : JStr
  model_id : JStr
  model_name : JStr
  context_length : Option ℚ
  availability : JStr
  pricing : Option Pricing
deriving DecidableEq

/-- The normalized model produced by `normalize` (app.js lines 31-50). -/
structure NormalizedModel where
  provider : String
  model_id : String
  model_name : String
  context_length : Option ℚ
  availability : String
  input : Option ℚ
  output : Option ℚ
  batch_input : Option ℚ
  batch_output : Option ℚ
  currency : String
  is_filtered : Bool
  raw : RawPriceRecord
deriving DecidableEq

/-- JS `String.prototype.toLowerCase`, modelled character-wise with the ASCII
lowering of `Char.toLower` (the identifiers matched here are ASCII). -/
def jsToLower (s : String) : String := String.mk (s.data.map Char.toLower)

/-- Character-list prefix test, spelled out structurally. -/
def prefixB : List Char → List Char → Bool
  | [], _ => true
  | _ :: _, [] => false
  | c :: cs, d :: ds => c == d && prefixB cs ds

/-- Character-list substring test, spelled out structurally. -/
def infixB (needle : List Char) : List Char → Bool
  | [] => prefixB needle []
  | d :: ds => prefixB needle (d :: ds) || infixB needle ds

/-- JS `hay.includes(needle)` substring test. -/
def jsIncludes (hay needle : String) : Bool := infixB needle.data hay.data

/-- app.js lines 17-29: substring-based audio/embedding category exclusion.
`(rec.model_id || '').toLowerCase()` and the same for `model_name`. -/
def isAudioOrEmbeddingOnly (rec : RawPriceRecord) : Bool :=
  let modelId := jsToLower (rec.model_id.orDefault "")
  let modelName := jsToLower (rec.model_name.orDefault "")
  if jsIncludes modelId "audio" || jsIncludes modelName "audio" then
    true
  else if jsIncludes modelId "embedding" || jsIncludes modelName "embedding" then
    true
  else
    false

/-- The empty object `{}` used as the fallback of
`(rec.pricing && rec.pricing.standard) || {}`. -/
def emptySide : PricingSide := { input := none, output := none }

/-- `(rec.pricing && rec.pricing.standard) || {}`. -/
def stdSide (rec : RawPriceRecord) : PricingSide :=
  match rec.pricing with
  | some pr => pr.standard.getD emptySide
  | none => emptySide

/-- `(rec.pricing && rec.pricing.batch) || {}`. -/
def batchSide (rec : RawPriceRecord) : PricingSide :=
  match rec.pricing with
  | some pr => pr.batch.getD emptySide
  | none => emptySide

/-- app.js line 34: `p => (p && typeof p.price_per_million_tokens === 'number')
? p.price_per_million_tokens : null`. -/
def val : Option PriceObj → Option ℚ
  | some p =>
    match p.price_per_million_tokens with
    | some (JVal.jnum q) => some q
    | _ => none
  | none => none

/-- JS `o || d` for an optional string against a non-empty default. -/
def jsOrStr (o : Option String) (d : String) : String :=
  match o with
  | some s => if s = "" then d else s
  | none => d

/-- app.js line 46: `(std.input && std.input.currency) || (std.output &&
std.output.currency) || 'USD'`. -/
def normCurrency (std : PricingSide) : String :=
  jsOrStr (match std.input with | some p => p.currency | none => none)
    (jsOrStr (match std.output with | some p => p.currency | none => none) "USD")

/-- app.js lines 31-50: the price-record normalizer. -/
def normalize (rec : RawPriceRecord) : NormalizedModel :=
  let std := stdSide rec
  let batch := batchSide rec
  { provider := rec.provider.orDefault "Unknown"
    model_id := rec.model_id.orDefault ""
    model_name := (rec.model_name.jsOr rec.model_id).orDefault "Unknown"
    context_length :=
      match rec.context_length with
      | some c => if c = 0 then none else some c
      | none => none
    availability := rec.availability.orDefault "unknown"
    input := val std.input
    output := val std.output
    batch_input := val batch.input
    batch_output := val batch.output
    currency := normCurrency std
    is_filtered := isAudioOrEmbeddingOnly rec
    raw := rec }

/-- `TokenUsage` as entered by the user; the source reads the fields through
`Number(...)`, so they are plain JS numbers. -/
structure TokenUsage where
  input_tokens : ℚ
  cached_tokens : ℚ
  output_tokens : ℚ
deriving DecidableEq

/-- JS truthiness of a number-or-null: `null` and `0` are falsy
(NaN cannot arise from the rational embedding). -/
def jsTruthyNum : Option ℚ → Bool
  | none => false
  | some q => decide (q ≠ 0)

/-- app.js lines 80-88 (input axis): `useBatch ? (m.batch_input != null ?
m.batch_input : m.input) : m.input`. -/
def resolveInPrice (m : NormalizedModel) (useBatch : Bool) : Option ℚ :=
  if useBatch then
    match m.batch_input with
    | some p => some p
    | none => m.input
  else m.input

/-- app.js lines 80-88 (output axis). -/
def resolveOutPrice (m : NormalizedModel) (useBatch : Bool) : Option ℚ :=
  if useBatch then
    match m.batch_output with
    | some p => some p
    | none => m.output
  else m.output

/-- app.js line 90: `inPrice ? (tokens.in/1e6) * inPrice : 0`. -/
def pinTerm (tokens : TokenUsage) (inPrice : Option ℚ) : ℚ :=
  if jsTruthyNum inPrice then tokens.input_tokens / 1000000 * inPrice.getD 0 else 0

/-- app.js line 91: `inPrice ? (tokens.cached/1e6) * inPrice * (cacheFactor ?? 0.5) : 0`. -/
def pcachedTerm (tokens : TokenUsage) (inPrice : Option ℚ) (cacheFactor : Option ℚ) : ℚ :=
  if jsTruthyNum inPrice then
    tokens.cached_tokens / 1000000 * inPrice.getD 0 * cacheFactor.getD (1/2)
  else 0

/-- app.js line 92: `outPrice ? (tokens.out/1e6) * outPrice : 0`. -/
def poutTerm (tokens : TokenUsage) (outPrice : Option ℚ) : ℚ :=
  if jsTruthyNum outPrice then tokens.output_tokens / 1000000 * outPrice.getD 0 else 0

/-- app.js lines 79-94: the cached-token cost calculator. -/
def calcCostWithCached (tokens : TokenUsage) (m : NormalizedModel) (useBatch : Bool)
    (cacheFactor : Option ℚ) : Option ℚ :=
  let inPrice := resolveInPrice m useBatch
  let outPrice := resolveOutPrice m useBatch
  if inPrice = none ∧ outPrice = none then none
  else some (pinTerm tokens inPrice + pcachedTerm tokens inPrice cacheFactor
    + poutTerm tokens outPrice)

/-- The spec's enumerated pricing mode. -/
inductive PricingMode where
  | Standard : PricingMode
  | Batch : PricingMode
deriving DecidableEq

/-- The `useBatch` flag the source passes for each mode. -/
def PricingMode.useBatch : PricingMode → Bool
  | .Standard => false
  | .Batch => true

/-- The spec-facing signature `computeCost(usage, model, mode, cacheDiscountFactor)`;
in the source this is `calcCostWithCached` with `useBatch = (mode === batch)` and a
non-null cache factor. -/
def computeCost (usage : TokenUsage) (m : NormalizedModel) (mode : PricingMode)
    (cacheDiscountFactor : ℚ) : Option ℚ :=
  calcCostWithCached usage m mode.useBatch (some cacheDiscountFactor)

lemma pinTerm_eq (t : TokenUsage) (p : Option ℚ) :
    pinTerm t p = t.input_tokens / 1000000 * p.getD 0 := by
  cases p with
  | none => simp [pinTerm, jsTruthyNum]
  | some q =>
    by_cases hq : q = 0 <;> simp [pinTerm, jsTruthyNum, hq]

lemma pcachedTerm_eq (t : TokenUsage) (p : Option ℚ) (f : ℚ) :
    pcachedTerm t p (some f) = t.cached_tokens / 1000000 * p.getD 0 * f := by
  cases p with
  | none => simp [pcachedTerm, jsTruthyNum]
  | some q =>
    by_cases hq : q = 0 <;> simp [pcachedTerm, jsTruthyNum, hq]

lemma poutTerm_eq (t : TokenUsage) (p : Option ℚ) :
    poutTerm t p = t.output_tokens / 1000000 * p.getD 0 := by
  cases p with
  | none => simp [poutTerm, jsTruthyNum]
  | some q =>
    by_cases hq : q = 0 <;> simp [poutTerm, jsTruthyNum, hq]

/-- C1: `computeCost` is `null` exactly when both mode-resolved prices are
`null`; when at least one resolved price is non-null the result is a number. -/
theorem computeCost_null_iff (usage : TokenUsage) (m : NormalizedModel)
    (mode : PricingMode) (f : ℚ) :
    (computeCost usage m mode f = none ↔
      resolveInPrice m mode.useBatch = none ∧ resolveOutPrice m mode.useBatch = none)
    ∧ ((computeCost usage m mode f).isSome = true ↔
      ¬(resolveInPrice m mode.useBatch = none ∧ resolveOutPrice m mode.useBatch = none)) := by
  unfold computeCost calcCostWithCached
  by_cases h : resolveInPrice m mode.useBatch = none ∧ resolveOutPrice m mode.useBatch = none <;>
    simp [h]

/-- C2: whenever `computeCost` returns a number it is exactly
`in/1e6 * p_in + cached/1e6 * p_in * f + out/1e6 * p_out`, a `null` price
contributing `0`; with usage `{0,0,0}` the result is `0` whenever at least one
resolved price is non-null. -/
theorem computeCost_formula (usage : TokenUsage) (m : NormalizedModel)
    (mode : PricingMode) (f : ℚ) :
    computeCost usage m mode f =
      (if resolveInPrice m mode.useBatch = none ∧ resolveOutPrice m mode.useBatch = none
       then none
       else some (usage.input_tokens / 1000000 * (resolveInPrice m mode.useBatch).getD 0
         + usage.cached_tokens / 1000000 * (resolveInPrice m mode.useBatch).getD 0 * f
         + usage.output_tokens / 1000000 * (resolveOutPrice m mode.useBatch).getD 0))
    ∧ computeCost ⟨0, 0, 0⟩ m mode f =
      (if resolveInPrice m mode.useBatch = none ∧ resolveOutPrice m mode.useBatch = none
       then none
       else some 0) := by
  constructor
  · unfold computeCost calcCostWithCached
    simp only [pinTerm_eq, pcachedTerm_eq, poutTerm_eq]
  · unfold computeCost calcCostWithCached
    simp only [pinTerm_eq, pcachedTerm_eq, poutTerm_eq]
    simp

/-- C3: under `Batch` mode each axis independently falls back to the standard
price when the batch price is `null`; a model with `standard_input_price = 1`
and `batch_input_price = null` has the same input cost component under both
modes. -/
theorem batch_fallback_per_axis :
    (∀ m : NormalizedModel, m.batch_input = none → resolveInPrice m true = m.input)
    ∧ (∀ (m : NormalizedModel) (q : ℚ), m.batch_input = some q →
        resolveInPrice m true = some q)
    ∧ (∀ m : NormalizedModel, m.batch_output = none → resolveOutPrice m true = m.output)
    ∧ (∀ (m : NormalizedModel) (q : ℚ), m.batch_output = some q →
        resolveOutPrice m true = some q)
    ∧ (∀ (usage : TokenUsage) (f : Option ℚ) (m : NormalizedModel),
        m.input = some 1 → m.batch_input = none →
        pinTerm usage (resolveInPrice m PricingMode.Batch.useBatch)
            + pcachedTerm usage (resolveInPrice m PricingMode.Batch.useBatch) f
          = pinTerm usage (resolveInPrice m PricingMode.Standard.useBatch)
            + pcachedTerm usage (resolveInPrice m PricingMode.Standard.useBatch) f) := by
  refine ⟨?_, ?_, ?_, ?_, ?_⟩
  · intro m h; simp [resolveInPrice, h]
  · intro m q h; simp [resolveInPrice, h]
  · intro m h; simp [resolveOutPrice, h]
  · intro m q h; simp [resolveOutPrice, h]
  · intro usage f m h1 hb
    have : resolveInPrice m PricingMode.Batch.useBatch
        = resolveInPrice m PricingMode.Standard.useBatch := by
      simp [resolveInPrice, PricingMode.useBatch, hb]
    rw [this]

/-- A raw record with the given provider, model id and standard prices, as used
by the concrete scenarios below. -/
def rawOf (provider model_id : String) (inP outP : Option ℚ) : RawPriceRecord :=
  { provider := .str provider
    model_id := .str model_id
    model_name := .undef
    context_length := none
    availability := .undef
    pricing := some
      { standard := some
          { input := inP.map fun q =>
              { price_per_million_tokens := some (.jnum q), currency := none }
            output := outP.map fun q =>
              { price_per_million_tokens := some (.jnum q), currency := none } }
        batch := none } }

/-- A model priced only on the standard input axis at 1 USD/M, with no batch
prices: the C3 batch-fallback scenario. -/
def modelC3 : NormalizedModel := normalize (rawOf "P" "m-c3" (some 1) none)

/-- Witness for C3 at the concrete fallback scenario. -/
theorem batch_fallback_per_axis_witness :
    resolveInPrice modelC3 true = modelC3.input
    ∧ pinTerm ⟨1000000, 500000, 0⟩ (resolveInPrice modelC3 PricingMode.Batch.useBatch)
        + pcachedTerm ⟨1000000, 500000, 0⟩ (resolveInPrice modelC3 PricingMode.Batch.useBatch)
          none
      = pinTerm ⟨1000000, 500000, 0⟩ (resolveInPrice modelC3 PricingMode.Standard.useBatch)
        + pcachedTerm ⟨1000000, 500000, 0⟩
          (resolveInPrice modelC3 PricingMode.Standard.useBatch) none :=
  ⟨batch_fallback_per_axis.1 modelC3 (by decide),
   batch_fallback_per_axis.2.2.2.2 ⟨1000000, 500000, 0⟩ none modelC3
     (by decide) (by decide)⟩

/-- app.js lines 96-99: `if(!rateValue || rateValue <= 0) return 0; return
rateValue * 30;` — `!rateValue` only adds `0` (and NaN, unrepresentable here),
which `<= 0` already covers. -/
def calcMonthlyRequests (rateValue : ℚ) : ℚ :=
  if rateValue ≤ 0 then 0 else rateValue * 30

/-- app.js line 116: `const monthly = cost != null ? cost * monthlyRequests : null`
with `monthlyRequests = calcMonthlyRequests(state.rateValue)`. -/
def monthlyProjection (cost : Option ℚ) (rateValue : ℚ) : Option ℚ :=
  match cost with
  | some c => some (c * calcMonthlyRequests rateValue)
  | none => none

/-- The spec's period unit for the request rate. -/
inductive Period where
  | perDay : Period
  | perMinute : Period
deriving DecidableEq

/-- Modelled from the spec: `monthlyCost(perRequestCost, requestRate, period)`
with `per-day → rate * 30` and `per-minute → rate * 60 * 24 * 30`, `null` for a
`null` per-request cost and `0` requests for a non-positive rate.  The source
has no period parameter at all; this definition exists only to compare the
spec's words with the source's `monthlyProjection`. -/
def monthlyCost_spec (perRequestCost : Option ℚ) (rate : ℚ) (period : Period) : Option ℚ :=
  match perRequestCost with
  | none => none
  | some c =>
    let requests : ℚ :=
      if rate ≤ 0 then 0
      else match period with
        | .perDay => rate * 30
        | .perMinute => rate * 60 * 24 * 30
    some (c * requests)

/-- C6 counterexample: at per-request cost 1 and rate 1 the code projects 30,
but the claim's `per-minute` formula demands 43200; the code has no period
parameter and never multiplies by `60 * 24 * 30`. -/
theorem monthly_per_minute_counterexample :
    monthlyProjection (some 1) 1 = some 30
    ∧ monthlyCost_spec (some 1) 1 Period.perMinute = some 43200
    ∧ monthlyProjection (some 1) 1 ≠ monthlyCost_spec (some 1) 1 Period.perMinute := by
  refine ⟨?_, ?_, ?_⟩ <;>
    norm_num [monthlyProjection, monthlyCost_spec, calcMonthlyRequests]

/-- C6 amended: the monthly projection always uses `rate * 30` requests (the
source supports only per-day semantics and has no period parameter); it is
`null` exactly for a `null` per-request cost and `0` for a non-positive rate
with a numeric cost, and it agrees with the spec's `per-day` formula. -/
theorem monthly_projection_formula (c rateValue : ℚ) :
    monthlyProjection none rateValue = none
    ∧ monthlyProjection (some c) rateValue
      = some (c * (if rateValue ≤ 0 then 0 else rateValue * 30))
    ∧ monthlyCost_spec (some c) rateValue Period.perDay
      = monthlyProjection (some c) rateValue := by
  refine ⟨rfl, ?_, ?_⟩ <;> simp [monthlyProjection, monthlyCost_spec, calcMonthlyRequests]

/-- app.js line 324: the dedup key computed on the raw record,
`${rec.provider || ''}::${rec.model_id || rec.model_name}` — note the empty
default for the provider and the template interpolation of a possibly
undefined model id/name. -/
def rawDedupKey (rec : RawPriceRecord) : String :=
  rec.provider.orDefault "" ++ "::" ++ (rec.model_id.jsOr rec.model_name).interp

/-- app.js lines 321-328: the dedup loop over the concatenated source arrays,
pushing `normalize(rec)` for each unseen key. -/
def buildLoop : List RawPriceRecord → List String → List NormalizedModel
  | [], _ => []
  | rec :: rest, seen =>
    if rawDedupKey rec ∈ seen then buildLoop rest seen
    else normalize rec :: buildLoop rest (rawDedupKey rec :: seen)

/-- The same loop restricted to the retained raw records, for reasoning. -/
def rawDedupe : List RawPriceRecord → List String → List RawPriceRecord
  | [], _ => []
  | rec :: rest, seen =>
    if rawDedupKey rec ∈ seen then rawDedupe rest seen
    else rec :: rawDedupe rest (rawDedupKey rec :: seen)

/-- app.js lines 317-329: catalog build from the succeeded sources' record
arrays, in source order (`arrays.flat()` then the dedup loop). -/
def buildCatalog (sources : List (List RawPriceRecord)) : List NormalizedModel :=
  buildLoop sources.flatten []

lemma buildLoop_eq (l : List RawPriceRecord) (seen : List String) :
    buildLoop l seen = (rawDedupe l seen).map normalize := by
  induction l generalizing seen with
  | nil => rfl
  | cons r rest ih =>
    unfold buildLoop rawDedupe
    by_cases h : rawDedupKey r ∈ seen <;> simp [h, ih]

lemma rawDedupe_sublist (l : List RawPriceRecord) (seen : List String) :
    (rawDedupe l seen).Sublist l := by
  induction l generalizing seen with
  | nil => exact List.Sublist.refl _
  | cons r rest ih =>
    unfold rawDedupe
    by_cases h : rawDedupKey r ∈ seen
    · simpa [h] using (ih seen).cons r
    · simpa [h] using (ih (rawDedupKey r :: seen)).cons₂ r

lemma rawDedupe_filter (l : List RawPriceRecord) (seen : List String) (k : String) :
    (rawDedupe l seen).filter (fun r => rawDedupKey r == k)
      = if k ∈ seen then [] else (l.filter (fun r => rawDedupKey r == k)).take 1 := by
  induction l generalizing seen with
  | nil => simp [rawDedupe]
  | cons r rest ih =>
    unfold rawDedupe
    by_cases hseen : rawDedupKey r ∈ seen
    · rw [if_pos hseen, ih]
      by_cases hk : k ∈ seen
      · rw [if_pos hk, if_pos hk]
      · rw [if_neg hk, if_neg hk]
        have hne : ¬ rawDedupKey r = k := by
          rintro rfl; exact hk hseen
        simp [List.filter_cons, hne]
    · rw [if_neg hseen]
      by_cases hrk : rawDedupKey r = k
      · subst hrk
        rw [if_neg hseen]
        rw [List.filter_cons]
        simp only [beq_self_eq_true, if_pos]
        rw [List.filter_cons]
        simp only [beq_self_eq_true, if_pos]
        rw [ih]
        simp [List.take]
      · have hne : (rawDedupKey r == k) = false := by simp [hrk]
        rw [List.filter_cons, List.filter_cons]
        simp only [hne, Bool.false_eq_true, if_neg, not_false_eq_true]
        rw [ih]
        have hmemiff : (k ∈ rawDedupKey r :: seen) ↔ k ∈ seen := by
          constructor
          · intro hm
            rcases List.mem_cons.mp hm with h1 | h1
            · exact absurd h1.symm hrk
            · exact h1
          · exact fun hm => List.mem_cons_of_mem _ hm
        by_cases hk : k ∈ seen
        · rw [if_pos (hmemiff.mpr hk), if_pos hk]
        · rw [if_neg (fun hmem => hk (hmemiff.mp hmem)), if_neg hk]

/-- The raw record of source A in the C7 scenario: key `P::M`, price 1. -/
def recA7 : RawPriceRecord := rawOf "P" "M" (some 1) (some 1)

/-- The raw record of source B in the C7 scenario: the same key `P::M`, price 2. -/
def recB7 : RawPriceRecord := rawOf "P" "M" (some 2) (some 2)

/-- C7: the catalog is the normalization of the records surviving first-wins
deduplication of the source-order concatenation; the retained records are a
sublist of the concatenation (stable order), for each key exactly the first
record bearing it survives, and with sources `[A, B]` sharing key `P::M` the
catalog holds A's record. -/
theorem dedupe_first_wins :
    (∀ sources : List (List RawPriceRecord),
      buildCatalog sources = (rawDedupe sources.flatten []).map normalize)
    ∧ (∀ (l : List RawPriceRecord) (seen : List String), (rawDedupe l seen).Sublist l)
    ∧ (∀ (l : List RawPriceRecord) (k : String),
        (rawDedupe l []).filter (fun r => rawDedupKey r == k)
          = (l.filter (fun r => rawDedupKey r == k)).take 1)
    ∧ buildCatalog [[recA7], [recB7]] = [normalize recA7] := by
  refine ⟨fun sources => buildLoop_eq _ _, rawDedupe_sublist, fun l k => ?_, rfl⟩
  rw [rawDedupe_filter]
  simp

lemma rawDedupe_keys_nodup (l : List RawPriceRecord) (seen : List String) :
    ((rawDedupe l seen).map rawDedupKey).Nodup
    ∧ ∀ r ∈ rawDedupe l seen, rawDedupKey r ∉ seen := by
  induction l generalizing seen with
  | nil => simp [rawDedupe]
  | cons r rest ih =>
    unfold rawDedupe
    by_cases h : rawDedupKey r ∈ seen
    · simpa [h] using ih seen
    · rw [if_neg h]
      obtain ⟨ihn, ihs⟩ := ih (rawDedupKey r :: seen)
      refine ⟨?_, ?_⟩
      · rw [List.map_cons, List.nodup_cons]
        refine ⟨?_, ihn⟩
        intro hmem
        obtain ⟨r', hr', hkey⟩ := List.mem_map.mp hmem
        exact (ihs r' hr') (hkey ▸ List.mem_cons_self _ _)
      · intro x hx
        rcases List.mem_cons.mp hx with rfl | hx'
        · exact h
        · exact fun hmem => (ihs x hx') (List.mem_cons_of_mem _ hmem)

/-- The normalized identity key used by the UI for row correlation
(app.js line 113): `${r.provider}::${r.model_id || r.model_name}`. -/
def NormalizedModel.identity_key (m : NormalizedModel) : String :=
  m.provider ++ "::" ++ (if m.model_id = "" then m.model_name else m.model_id)

/-- A record with no provider field: raw dedup key `::m`, identity key
`Unknown::m`. -/
def rec8a : RawPriceRecord :=
  { provider := .undef
    model_id := .str "m"
    model_name := .undef
    context_length := none
    availability := .undef
    pricing := some
      { standard := some
          { input := some { price_per_million_tokens := some (.jnum 1), currency := none }
            output := none }
        batch := none } }

/-- A record with provider literally `"Unknown"`: raw dedup key `Unknown::m`,
identity key also `Unknown::m`. -/
def rec8b : RawPriceRecord :=
  { provider := .str "Unknown"
    model_id := .str "m"
    model_name := .undef
    context_length := none
    availability := .undef
    pricing := some
      { standard := some
          { input := some { price_per_million_tokens := some (.jnum 2), currency := none }
            output := none }
        batch := none } }

/-- C8 counterexample: the builder dedupes on the raw key (`provider || ''`),
while the identity key uses the normalized provider (default `Unknown`), so a
record with no provider and one with provider `"Unknown"` both survive and
share the identity key `Unknown::m`. -/
theorem identity_key_collision_counterexample :
    buildCatalog [[rec8a, rec8b]] = [normalize rec8a, normalize rec8b]
    ∧ (normalize rec8a).identity_key = (normalize rec8b).identity_key
    ∧ ¬ ((buildCatalog [[rec8a, rec8b]]).map NormalizedModel.identity_key).Nodup := by
  refine ⟨rfl, by decide, by decide⟩

/-- C8 amended: what the builder makes unique within a catalog is the raw dedup
key `{provider || ''}::{model_id || model_name}` of the retained records;
the normalized `identity_key` can collide when normalization defaults map
distinct raw keys to the same string. -/
theorem raw_dedup_keys_nodup (sources : List (List RawPriceRecord)) :
    ((rawDedupe sources.flatten []).map rawDedupKey).Nodup :=
  (rawDedupe_keys_nodup sources.flatten []).1

/-- C9: the normalizer is total (it is a Lean function); a record with no
`pricing` object normalizes with all four prices `null`, and a price field
that is absent or not of numeric type normalizes to `null` — a numeric result
can only be the actual numeric field value, never a default `0`. -/
theorem normalize_total_defaults :
    (∀ rec : RawPriceRecord, rec.pricing = none →
      (normalize rec).input = none ∧ (normalize rec).output = none
      ∧ (normalize rec).batch_input = none ∧ (normalize rec).batch_output = none)
    ∧ (∀ p : PriceObj,
        p.price_per_million_tokens = none ∨ p.price_per_million_tokens = some JVal.jnonnum →
        val (some p) = none)
    ∧ val none = none
    ∧ (∀ (p : PriceObj) (q : ℚ), val (some p) = some q →
        p.price_per_million_tokens = some (JVal.jnum q)) := by
  refine ⟨?_, ?_, rfl, ?_⟩
  · intro rec h
    simp [normalize, stdSide, batchSide, h, emptySide, val]
  · intro p h
    rcases h with h | h <;> simp [val, h]
  · intro p q h
    rcases hp : p.price_per_million_tokens with _ | v
    · simp only [val, hp] at h
      exact Option.noConfusion h
    · rcases v with q' | _
      · simp only [val, hp, Option.some.injEq] at h
        rw [h]
      · simp only [val, hp] at h
        exact Option.noConfusion h

/-- A raw record with `pricing` entirely absent, for the C9 witness. -/
def rec9 : RawPriceRecord :=
  { provider := .str "X"
    model_id := .str "a"
    model_name := .undef
    context_length := none
    availability := .undef
    pricing := none }

/-- A price object whose price field is present but not numeric, for the C9
witness. -/
def priceObj9 : PriceObj := { price_per_million_tokens := some JVal.jnonnum, currency := none }

/-- Witness for C9 at a concrete pricing-free record and a concrete
non-numeric price field. -/
theorem normalize_total_defaults_witness :
    ((normalize rec9).input = none ∧ (normalize rec9).output = none
      ∧ (normalize rec9).batch_input = none ∧ (normalize rec9).batch_output = none)
    ∧ val (some priceObj9) = none :=
  ⟨normalize_total_defaults.1 rec9 rfl,
   normalize_total_defaults.2.1 priceObj9 (Or.inr rfl)⟩

/-- A JS number that is either finite or `Infinity` (from
`calcCostWithCached(...) ?? Number.POSITIVE_INFINITY`). -/
inductive JNum where
  | fin : ℚ → JNum
  | inf : JNum
deriving DecidableEq

/-- The sign of the JS comparator `a - b` on possibly-infinite costs.
`Infinity - Infinity` is NaN, and the ECMAScript SortCompare operation turns a
NaN comparator result into `+0`, so that case is 0 here. -/
def jsNumCmp : JNum → JNum → Int
  | .inf, .inf => 0
  | .inf, .fin _ => 1
  | .fin _, .inf => -1
  | .fin a, .fin b => if a < b then -1 else if b < a then 1 else 0

/-- The sign of the null-aware numeric comparison used for the `input` and
`output` sort keys (app.js lines 166-181): both null → 0, null sorts after
non-null, else the sign of `aVal - bVal`. -/
def optNumCmp : Option ℚ → Option ℚ → Int
  | none, none => 0
  | none, some _ => 1
  | some _, none => -1
  | some a, some b => if a < b then -1 else if b < a then 1 else 0

/-- The plain stored fields reachable through `a[key]` in the generic sort
branch (app.js lines 182-188). -/
inductive PlainKey where
  | provider : PlainKey
  | model_id : PlainKey
  | model_name : PlainKey
  | context_length : PlainKey
  | availability : PlainKey
  | currency : PlainKey
deriving DecidableEq

/-- A sort key: the derived `cost`/`monthly` keys, the mode-resolved
`input`/`output` keys, or a plain stored field. -/
inductive SortKey where
  | cost : SortKey
  | monthly : SortKey
  | input : SortKey
  | output : SortKey
  | plain : PlainKey → SortKey
deriving DecidableEq

/-- The dynamic value `a[key]` of a plain field: a string, a number or null. -/
inductive SortVal where
  | vstr : String → SortVal
  | vnum : ℚ → SortVal
  | vnull : SortVal
deriving DecidableEq

/-- Field access `a[key]` for the generic sort branch. -/
def plainField (m : NormalizedModel) : PlainKey → SortVal
  | .provider => .vstr m.provider
  | .model_id => .vstr m.model_id
  | .model_name => .vstr m.model_name
  | .context_length =>
    match m.context_length with
    | some q => .vnum q
    | none => .vnull
  | .availability => .vstr m.availability
  | .currency => .vstr m.currency

/-- JS `String(v)` for a sort value. -/
def svToString : SortVal → String
  | .vstr s => s
  | .vnum q => toString q
  | .vnull => "null"

/-- JS `String(av).localeCompare(String(bv))`, modelled as code-unit
lexicographic comparison.  The real `localeCompare` is locale-dependent;
no theorem below depends on the values this returns. -/
def localeCompare (a b : String) : Int :=
  match compare a b with
  | .lt => -1
  | .eq => 0
  | .gt => 1

/-- The generic comparison of app.js lines 182-188: nulls after non-nulls,
numbers numerically, anything else as strings. -/
def genericCmp (a b : SortVal) : Int :=
  match a, b with
  | .vnull, .vnull => 0
  | .vnull, _ => 1
  | _, .vnull => -1
  | .vnum x, .vnum y => if x < y then -1 else if y < x then 1 else 0
  | x, y => localeCompare (svToString x) (svToString y)

/-- Sort direction. -/
inductive SortDir where
  | asc : SortDir
  | desc : SortDir
deriving DecidableEq

/-- The query-relevant fields of the UI state object read by
`applyFilterSort` and `renderRows` (part_001 second iteration, lines
378-456): the catalog, the text filter, the sort selection, the pricing
toggle, the global token counts, the cache factor, the request rate and the
top-N bound (`topN = none` models the `'all'` selection). -/
structure QueryState where
  data : List NormalizedModel
  filterText : String
  sortKey : Option SortKey
  sortDir : SortDir
  useBatch : Bool
  globalTokens : TokenUsage
  cacheFactor : Option ℚ
  rateValue : ℚ
  topN : Option ℕ

/-- `getCost` of app.js lines 150-153: the per-request cost with `null`
coalesced to `Infinity`. -/
def getCostJ (st : QueryState) (m : NormalizedModel) : JNum :=
  match calcCostWithCached st.globalTokens m st.useBatch st.cacheFactor with
  | some c => .fin c
  | none => .inf

/-- `getMonthlyCost` of app.js lines 154-158: scale a finite cost by the
monthly request count, keep `Infinity` infinite. -/
def getMonthlyJ (st : QueryState) (m : NormalizedModel) : JNum :=
  match getCostJ st m with
  | .fin c => .fin (c * calcMonthlyRequests st.rateValue)
  | .inf => .inf

/-- The comparator `cmp` of app.js lines 159-189, as the sign of its result. -/
def cmpKey (st : QueryState) (key : SortKey) (a b : NormalizedModel) : Int :=
  match key with
  | .cost => jsNumCmp (getCostJ st a) (getCostJ st b)
  | .monthly => jsNumCmp (getMonthlyJ st a) (getMonthlyJ st b)
  | .input => optNumCmp (resolveInPrice a st.useBatch) (resolveInPrice b st.useBatch)
  | .output => optNumCmp (resolveOutPrice a st.useBatch) (resolveOutPrice b st.useBatch)
  | .plain k => genericCmp (plainField a k) (plainField b k)

/-- app.js line 190: `dir==='asc' ? cmp(a,b) : -cmp(a,b)`. -/
def effCmp (st : QueryState) (key : SortKey) (a b : NormalizedModel) : Int :=
  if st.sortDir = SortDir.asc then cmpKey st key a b else -(cmpKey st key a b)

/-- Category exclusion (app.js line 145): `rows.filter(m => !m.is_filtered)`. -/
def categoryStage (rows : List NormalizedModel) : List NormalizedModel :=
  rows.filter fun m => !m.is_filtered

/-- The text-filter predicate of part_001 lines 389-396: the lowercased search
term is a substring of the provider, model name, model id, or (when truthy)
the stringified context length. -/
def jsMatchesSearch (searchTerm : String) (m : NormalizedModel) : Bool :=
  jsIncludes (jsToLower m.provider) searchTerm
  || jsIncludes (jsToLower m.model_name) searchTerm
  || jsIncludes (jsToLower m.model_id) searchTerm
  || (match m.context_length with
      | some c => if c = 0 then false else jsIncludes (toString c) searchTerm
      | none => false)

/-- Text filter (part_001 lines 387-397): applied only when `filterText` is
truthy. -/
def searchStage (filterText : String) (rows : List NormalizedModel) : List NormalizedModel :=
  if filterText ≠ "" then rows.filter (jsMatchesSearch (jsToLower filterText)) else rows

/-- The sort step (app.js lines 146-191): a stable sort by the chosen
comparator, embedded as insertion sort on "comparator result not positive"
(ECMAScript requires `Array.prototype.sort` to be stable, and a stable sort
under a consistent comparator has a unique result). -/
def sortStage (st : QueryState) (rows : List NormalizedModel) : List NormalizedModel :=
  match st.sortKey with
  | none => rows
  | some key => List.insertionSort (fun a b => effCmp st key a b ≤ 0) rows

/-- The top-N step (part_001 lines 445-453): when a bound is set, re-sort a
copy by ascending cost and keep the first `n` — the re-sorted copy is what is
rendered. -/
def topNStage (st : QueryState) (rows : List NormalizedModel) : List NormalizedModel :=
  match st.topN with
  | none => rows
  | some n =>
    (List.insertionSort (fun a b => jsNumCmp (getCostJ st a) (getCostJ st b) ≤ 0) rows).take n

/-- The full query pipeline `applyFilterSort` (part_001 lines 378-456):
category exclusion, text filter, display sort, top-N.  The rows returned here
are exactly what `renderRows` receives.  (The app.js variant is this pipeline
with `filterText = ""` and `topN = none`.) -/
def applyFilterSort (st : QueryState) : List NormalizedModel :=
  topNStage st (sortStage st (searchStage st.filterText (categoryStage st.data)))

/-- The total preorder that `jsNumCmp x y ≤ 0` decides: finite values by
`≤`, `Infinity` above everything and tied with itself. -/
def JNum.leq : JNum → JNum → Prop
  | _, .inf => True
  | .inf, .fin _ => False
  | .fin a, .fin b => a ≤ b

lemma jsNumCmp_nonpos_iff : ∀ x y : JNum, jsNumCmp x y ≤ 0 ↔ JNum.leq x y
  | .inf, .inf => by simp [jsNumCmp, JNum.leq]
  | .inf, .fin b => by norm_num [jsNumCmp, JNum.leq]
  | .fin a, .inf => by norm_num [jsNumCmp, JNum.leq]
  | .fin a, .fin b => by
    simp only [jsNumCmp, JNum.leq]
    split_ifs with h1 h2
    · constructor
      · intro _; exact h1.le
      · intro _; norm_num
    · constructor
      · intro hc; norm_num at hc
      · intro hab; linarith
    · constructor
      · intro _; exact le_of_not_lt h2
      · intro _; norm_num

lemma jsNumCmp_neg_nonpos_iff : ∀ x y : JNum, -(jsNumCmp x y) ≤ 0 ↔ JNum.leq y x
  | .inf, .inf => by simp [jsNumCmp, JNum.leq]
  | .inf, .fin b => by norm_num [jsNumCmp, JNum.leq]
  | .fin a, .inf => by norm_num [jsNumCmp, JNum.leq]
  | .fin a, .fin b => by
    simp only [jsNumCmp, JNum.leq]
    split_ifs with h1 h2
    · constructor
      · intro hc; norm_num at hc
      · intro hba; linarith
    · constructor
      · intro _; exact h2.le
      · intro _; norm_num
    · constructor
      · intro _; exact le_of_not_lt h1
      · intro _; norm_num

lemma JNum.leq_trans : ∀ {x y z : JNum}, JNum.leq x y → JNum.leq y z → JNum.leq x z := by
  intro x y z h1 h2
  cases x <;> cases y <;> cases z <;>
    (simp only [JNum.leq] at h1 h2 ⊢
     all_goals
       first
         | trivial
         | exact h1.elim
         | exact h2.elim
         | exact le_trans h1 h2)

lemma JNum.leq_total : ∀ x y : JNum, JNum.leq x y ∨ JNum.leq y x := by
  intro x y
  cases x <;> cases y <;> simp only [JNum.leq] <;>
    first
      | exact Or.inl trivial
      | exact Or.inr trivial
      | exact le_total _ _

lemma JNum.leq_inf : ∀ {x y : JNum}, JNum.leq x y → x = .inf → y = .inf := by
  intro x y h hx
  subst hx
  cases y with
  | fin a => simp [JNum.leq] at h
  | inf => rfl

/-- A raw record whose model id contains `embedding`, for the C10 scenario. -/
def recEmb : RawPriceRecord := rawOf "OpenAI" "text-embedding-3" (some 1) (some 1)

/-- C10: a record whose raw model id or model name contains `audio` or
`embedding` (case-insensitive) is normalized with `is_filtered = true`; every
record in the query output has `is_filtered = false`; hence the concrete
`text-embedding-3` model never appears in the output, whatever the query
options. -/
theorem filtered_never_in_query :
    (∀ rec : RawPriceRecord,
      (jsIncludes (jsToLower (rec.model_id.orDefault "")) "audio"
        || jsIncludes (jsToLower (rec.model_name.orDefault "")) "audio"
        || jsIncludes (jsToLower (rec.model_id.orDefault "")) "embedding"
        || jsIncludes (jsToLower (rec.model_name.orDefault "")) "embedding") = true →
      (normalize rec).is_filtered = true)
    ∧ (∀ (st : QueryState) (m : NormalizedModel),
        m ∈ applyFilterSort st → m.is_filtered = false)
    ∧ (∀ st : QueryState, normalize recEmb ∉ applyFilterSort st) := by
  have h1 : ∀ rec : RawPriceRecord,
      (jsIncludes (jsToLower (rec.model_id.orDefault "")) "audio"
        || jsIncludes (jsToLower (rec.model_name.orDefault "")) "audio"
        || jsIncludes (jsToLower (rec.model_id.orDefault "")) "embedding"
        || jsIncludes (jsToLower (rec.model_name.orDefault "")) "embedding") = true →
      (normalize rec).is_filtered = true := by
    intro rec h
    have hrfl : (normalize rec).is_filtered = isAudioOrEmbeddingOnly rec := rfl
    rw [hrfl]
    unfold isAudioOrEmbeddingOnly
    dsimp only
    simp only [Bool.or_eq_true] at h
    split_ifs with ha he
    · rfl
    · rfl
    · simp only [Bool.or_eq_true, not_or] at ha he
      rcases h with ((h | h) | h) | h <;> simp_all
  have h2 : ∀ (st : QueryState) (m : NormalizedModel),
      m ∈ applyFilterSort st → m.is_filtered = false := by
    intro st m hm
    unfold applyFilterSort at hm
    have hm2 : m ∈ sortStage st (searchStage st.filterText (categoryStage st.data)) := by
      unfold topNStage at hm
      cases htop : st.topN with
      | none => rw [htop] at hm; exact hm
      | some n =>
        rw [htop] at hm
        exact (List.perm_insertionSort _ _).subset ((List.take_sublist n _).subset hm)
    have hm3 : m ∈ searchStage st.filterText (categoryStage st.data) := by
      unfold sortStage at hm2
      cases hk : st.sortKey with
      | none => rw [hk] at hm2; exact hm2
      | some key =>
        rw [hk] at hm2
        exact (List.perm_insertionSort _ _).subset hm2
    have hm4 : m ∈ categoryStage st.data := by
      unfold searchStage at hm3
      by_cases hf : st.filterText ≠ ""
      · rw [if_pos hf] at hm3
        exact List.mem_of_mem_filter hm3
      · rw [if_neg hf] at hm3; exact hm3
    unfold categoryStage at hm4
    have := (List.mem_filter.mp hm4).2
    simpa using this
  refine ⟨h1, h2, ?_⟩
  intro st hmem
  have hff := h2 st _ hmem
  have hT : (normalize recEmb).is_filtered = true := by decide
  rw [hT] at hff
  exact Bool.noConfusion hff

/-- A query state holding only the embedding model, for the C10 witness. -/
def stEmb : QueryState :=
  { data := [normalize recEmb]
    filterText := ""
    sortKey := some SortKey.cost
    sortDir := .asc
    useBatch := false
    globalTokens := ⟨1000, 0, 500⟩
    cacheFactor := some (1/2)
    rateValue := 100
    topN := none }

/-- Witness for C10: the `text-embedding-3` record is filtered and absent from
a concrete query output. -/
theorem filtered_never_in_query_witness :
    (normalize recEmb).is_filtered = true ∧ normalize recEmb ∉ applyFilterSort stEmb :=
  ⟨filtered_never_in_query.1 recEmb (by decide), filtered_never_in_query.2.2 stEmb⟩

lemma insertionSort_pair {α : Type} (r : α → α → Prop) [DecidableRel r] (a b : α) :
    List.insertionSort r [a, b] = if r a b then [a, b] else [b, a] := by
  simp [List.insertionSort, List.orderedInsert]

/-- C4 amended: with a top-N bound `n` the query output has at most `n`
records, they are the `n` cheapest of the display-sorted rows (every kept
record costs no more than every dropped one), and they are emitted in
ascending-cost order — the top-N re-sort replaces the display sort order
instead of preserving it. -/
theorem topN_lowest_cost (st : QueryState) (n : ℕ) (h : st.topN = some n) :
    (applyFilterSort st).length ≤ n
    ∧ (applyFilterSort st).Pairwise
        (fun a b => jsNumCmp (getCostJ st a) (getCostJ st b) ≤ 0)
    ∧ ∃ dropped : List NormalizedModel,
        (sortStage st (searchStage st.filterText (categoryStage st.data))).Perm
          (applyFilterSort st ++ dropped)
        ∧ ∀ a ∈ applyFilterSort st, ∀ b ∈ dropped,
            jsNumCmp (getCostJ st a) (getCostJ st b) ≤ 0 := by
  have happ : applyFilterSort st
      = (List.insertionSort (fun a b => jsNumCmp (getCostJ st a) (getCostJ st b) ≤ 0)
          (sortStage st (searchStage st.filterText (categoryStage st.data)))).take n := by
    unfold applyFilterSort topNStage
    rw [h]
  haveI : IsTrans NormalizedModel
      (fun a b => jsNumCmp (getCostJ st a) (getCostJ st b) ≤ 0) := by
    constructor
    intro a b c hab hbc
    exact (jsNumCmp_nonpos_iff _ _).mpr
      (JNum.leq_trans ((jsNumCmp_nonpos_iff _ _).mp hab) ((jsNumCmp_nonpos_iff _ _).mp hbc))
  haveI : IsTotal NormalizedModel
      (fun a b => jsNumCmp (getCostJ st a) (getCostJ st b) ≤ 0) := by
    constructor
    intro a b
    exact (JNum.leq_total (getCostJ st a) (getCostJ st b)).imp
      (jsNumCmp_nonpos_iff _ _).mpr (jsNumCmp_nonpos_iff _ _).mpr
  have hsorted : (List.insertionSort (fun a b => jsNumCmp (getCostJ st a) (getCostJ st b) ≤ 0)
      (sortStage st (searchStage st.filterText (categoryStage st.data)))).Pairwise
        (fun a b => jsNumCmp (getCostJ st a) (getCostJ st b) ≤ 0) :=
    List.sorted_insertionSort _ _
  have hperm : (List.insertionSort (fun a b => jsNumCmp (getCostJ st a) (getCostJ st b) ≤ 0)
      (sortStage st (searchStage st.filterText (categoryStage st.data)))).Perm
        (sortStage st (searchStage st.filterText (categoryStage st.data))) :=
    List.perm_insertionSort _ _
  refine ⟨?_, ?_, ?_⟩
  · rw [happ]
    exact le_trans (le_of_eq (List.length_take n _)) (min_le_left _ _)
  · rw [happ]
    exact List.Pairwise.sublist (List.take_sublist n _) hsorted
  · refine ⟨(List.insertionSort (fun a b => jsNumCmp (getCostJ st a) (getCostJ st b) ≤ 0)
      (sortStage st (searchStage st.filterText (categoryStage st.data)))).drop n, ?_, ?_⟩
    · rw [happ, List.take_append_drop]
      exact hperm.symm
    · intro a ha b hb
      rw [happ] at ha
      rw [← List.take_append_drop n (List.insertionSort
        (fun a b => jsNumCmp (getCostJ st a) (getCostJ st b) ≤ 0)
        (sortStage st (searchStage st.filterText (categoryStage st.data))))] at hsorted
      exact (List.pairwise_append.mp hsorted).2.2 a ha b hb

/-- The cheap record of the C4 scenario: cost 2 at the scenario usage. -/
def recCheap4 : RawPriceRecord := rawOf "A" "cheap" (some 1) (some 1)

/-- The expensive record of the C4 scenario: cost 18 at the scenario usage. -/
def recPricey4 : RawPriceRecord := rawOf "A" "pricey" (some 9) (some 9)

/-- The C4 scenario without a top-N bound: display sort is cost-descending. -/
def stTop4No : QueryState :=
  { data := [normalize recCheap4, normalize recPricey4]
    filterText := ""
    sortKey := some SortKey.cost
    sortDir := .desc
    useBatch := false
    globalTokens := ⟨1000000, 0, 1000000⟩
    cacheFactor := some (1/2)
    rateValue := 0
    topN := none }

/-- The same scenario with a top-N bound of 2 (which retains both records). -/
def stTop4 : QueryState := { stTop4No with topN := some 2 }

lemma getCostJ_cheap4 : getCostJ stTop4No (normalize recCheap4) = JNum.fin 2 := by
  have hc : calcCostWithCached stTop4No.globalTokens (normalize recCheap4)
      stTop4No.useBatch stTop4No.cacheFactor
      = some ((1000000 : ℚ) / 1000000 * 1 + 0 / 1000000 * 1 * (1/2)
        + 1000000 / 1000000 * 1) := rfl
  unfold getCostJ
  rw [hc]
  norm_num

lemma getCostJ_pricey4 : getCostJ stTop4No (normalize recPricey4) = JNum.fin 18 := by
  have hc : calcCostWithCached stTop4No.globalTokens (normalize recPricey4)
      stTop4No.useBatch stTop4No.cacheFactor
      = some ((1000000 : ℚ) / 1000000 * 9 + 0 / 1000000 * 9 * (1/2)
        + 1000000 / 1000000 * 9) := rfl
  unfold getCostJ
  rw [hc]
  norm_num

/-- C4 counterexample: with the display sort cost-descending, the rows without
a bound are `[pricey, cheap]`; adding the bound `N = 2` retains the same two
records but emits them `[cheap, pricey]` — the top-N pass changed the relative
order the display sort gave the retained records. -/
theorem topN_overrides_display_sort_counterexample :
    applyFilterSort stTop4No = [normalize recPricey4, normalize recCheap4]
    ∧ applyFilterSort stTop4 = [normalize recCheap4, normalize recPricey4] := by
  have heff : effCmp stTop4No SortKey.cost (normalize recCheap4) (normalize recPricey4)
      = 1 := by
    have hstep : effCmp stTop4No SortKey.cost (normalize recCheap4) (normalize recPricey4)
        = -(jsNumCmp (getCostJ stTop4No (normalize recCheap4))
            (getCostJ stTop4No (normalize recPricey4))) := rfl
    rw [hstep, getCostJ_cheap4, getCostJ_pricey4]
    norm_num [jsNumCmp]
  have heff4 : effCmp stTop4 SortKey.cost (normalize recCheap4) (normalize recPricey4)
      = 1 := heff
  have hdisplay : List.insertionSort
      (fun a b => effCmp stTop4No SortKey.cost a b ≤ 0)
      [normalize recCheap4, normalize recPricey4]
      = [normalize recPricey4, normalize recCheap4] := by
    rw [insertionSort_pair]
    rw [if_neg (by rw [heff]; norm_num)]
  have hdisplay4 : List.insertionSort
      (fun a b => effCmp stTop4 SortKey.cost a b ≤ 0)
      [normalize recCheap4, normalize recPricey4]
      = [normalize recPricey4, normalize recCheap4] := by
    rw [insertionSort_pair]
    rw [if_neg (by rw [heff4]; norm_num)]
  constructor
  · have hpipe : applyFilterSort stTop4No
        = List.insertionSort (fun a b => effCmp stTop4No SortKey.cost a b ≤ 0)
            [normalize recCheap4, normalize recPricey4] := rfl
    rw [hpipe, hdisplay]
  · have hpipe : applyFilterSort stTop4
        = (List.insertionSort
            (fun a b => jsNumCmp (getCostJ stTop4 a) (getCostJ stTop4 b) ≤ 0)
            (List.insertionSort (fun a b => effCmp stTop4 SortKey.cost a b ≤ 0)
              [normalize recCheap4, normalize recPricey4])).take 2 := rfl
    have hsame2 : ∀ m, getCostJ stTop4 m = getCostJ stTop4No m := fun m => rfl
    rw [hpipe, hdisplay4]
    rw [insertionSort_pair]
    rw [if_neg (by
      rw [hsame2, hsame2, getCostJ_cheap4, getCostJ_pricey4]
      norm_num [jsNumCmp])]
    rfl

/-- Witness for the amended C4 theorem at the concrete bounded scenario. -/
theorem topN_lowest_cost_witness :
    (applyFilterSort stTop4).length ≤ 2
    ∧ (applyFilterSort stTop4).Pairwise
        (fun a b => jsNumCmp (getCostJ stTop4 a) (getCostJ stTop4 b) ≤ 0)
    ∧ ∃ dropped : List NormalizedModel,
        (sortStage stTop4 (searchStage stTop4.filterText (categoryStage stTop4.data))).Perm
          (applyFilterSort stTop4 ++ dropped)
        ∧ ∀ a ∈ applyFilterSort stTop4, ∀ b ∈ dropped,
            jsNumCmp (getCostJ stTop4 a) (getCostJ stTop4 b) ≤ 0 :=
  topN_lowest_cost stTop4 2 rfl

lemma insertionSort_pairwise_leq (f : NormalizedModel → JNum)
    (cmp : NormalizedModel → NormalizedModel → Int)
    (hcmp : ∀ a b, cmp a b ≤ 0 ↔ JNum.leq (f a) (f b)) (rows : List NormalizedModel) :
    (List.insertionSort (fun a b => cmp a b ≤ 0) rows).Pairwise
      (fun a b => JNum.leq (f a) (f b)) := by
  haveI : IsTrans NormalizedModel (fun a b => cmp a b ≤ 0) := by
    constructor
    intro a b c hab hbc
    exact (hcmp a c).mpr (JNum.leq_trans ((hcmp a b).mp hab) ((hcmp b c).mp hbc))
  haveI : IsTotal NormalizedModel (fun a b => cmp a b ≤ 0) := by
    constructor
    intro a b
    exact (JNum.leq_total (f a) (f b)).imp (hcmp a b).mpr (hcmp b a).mpr
  have hs := List.sorted_insertionSort (fun a b => cmp a b ≤ 0) rows
  exact hs.imp fun hab => (hcmp _ _).mp hab

lemma insertionSort_pairwise_geq (f : NormalizedModel → JNum)
    (cmp : NormalizedModel → NormalizedModel → Int)
    (hcmp : ∀ a b, cmp a b ≤ 0 ↔ JNum.leq (f b) (f a)) (rows : List NormalizedModel) :
    (List.insertionSort (fun a b => cmp a b ≤ 0) rows).Pairwise
      (fun a b => JNum.leq (f b) (f a)) := by
  haveI : IsTrans NormalizedModel (fun a b => cmp a b ≤ 0) := by
    constructor
    intro a b c hab hbc
    exact (hcmp a c).mpr (JNum.leq_trans ((hcmp b c).mp hbc) ((hcmp a b).mp hab))
  haveI : IsTotal NormalizedModel (fun a b => cmp a b ≤ 0) := by
    constructor
    intro a b
    exact (JNum.leq_total (f b) (f a)).imp (hcmp a b).mpr (hcmp b a).mpr
  have hs := List.sorted_insertionSort (fun a b => cmp a b ≤ 0) rows
  exact hs.imp fun hab => (hcmp _ _).mp hab

lemma getMonthlyJ_inf_iff (st : QueryState) (m : NormalizedModel) :
    getMonthlyJ st m = JNum.inf ↔ getCostJ st m = JNum.inf := by
  unfold getMonthlyJ
  cases h : getCostJ st m <;> simp [h]

/-- C5 amended: sorting by the derived `cost` or `monthly` key (without a
top-N bound, which would re-sort ascending) places every `null`-cost record
after every priced record in ascending order, but *before* every priced
record in descending order — the whole comparator is negated for descending,
so "infinitely expensive" records lead rather than trail. -/
theorem derived_sort_null_placement (st : QueryState) (key : SortKey)
    (hk : st.sortKey = some key) (hkey : key = SortKey.cost ∨ key = SortKey.monthly)
    (htop : st.topN = none) :
    (st.sortDir = SortDir.asc →
      (applyFilterSort st).Pairwise
        (fun a b => getCostJ st a = JNum.inf → getCostJ st b = JNum.inf))
    ∧ (st.sortDir = SortDir.desc →
      (applyFilterSort st).Pairwise
        (fun a b => getCostJ st b = JNum.inf → getCostJ st a = JNum.inf)) := by
  have happ : applyFilterSort st
      = List.insertionSort (fun a b => effCmp st key a b ≤ 0)
          (searchStage st.filterText (categoryStage st.data)) := by
    unfold applyFilterSort topNStage sortStage
    rw [htop, hk]
  constructor
  · intro hdir
    rw [happ]
    rcases hkey with rfl | rfl
    · have hcmp : ∀ a b, effCmp st SortKey.cost a b ≤ 0 ↔
          JNum.leq (getCostJ st a) (getCostJ st b) := by
        intro a b
        unfold effCmp cmpKey
        rw [hdir]
        simp only [if_pos rfl]
        exact jsNumCmp_nonpos_iff _ _
      exact (insertionSort_pairwise_leq (getCostJ st) _ hcmp _).imp
        fun hab ha => JNum.leq_inf hab ha
    · have hcmp : ∀ a b, effCmp st SortKey.monthly a b ≤ 0 ↔
          JNum.leq (getMonthlyJ st a) (getMonthlyJ st b) := by
        intro a b
        unfold effCmp cmpKey
        rw [hdir]
        simp only [if_pos rfl]
        exact jsNumCmp_nonpos_iff _ _
      refine (insertionSort_pairwise_leq (getMonthlyJ st) _ hcmp _).imp ?_
      intro a b hab ha
      exact (getMonthlyJ_inf_iff st b).mp
        (JNum.leq_inf hab ((getMonthlyJ_inf_iff st a).mpr ha))
  · intro hdir
    rw [happ]
    rcases hkey with rfl | rfl
    · have hcmp : ∀ a b, effCmp st SortKey.cost a b ≤ 0 ↔
          JNum.leq (getCostJ st b) (getCostJ st a) := by
        intro a b
        unfold effCmp cmpKey
        rw [hdir]
        rw [if_neg (by intro h; exact SortDir.noConfusion h)]
        exact jsNumCmp_neg_nonpos_iff _ _
      exact (insertionSort_pairwise_geq (getCostJ st) _ hcmp _).imp
        fun hab hb => JNum.leq_inf hab hb
    · have hcmp : ∀ a b, effCmp st SortKey.monthly a b ≤ 0 ↔
          JNum.leq (getMonthlyJ st b) (getMonthlyJ st a) := by
        intro a b
        unfold effCmp cmpKey
        rw [hdir]
        rw [if_neg (by intro h; exact SortDir.noConfusion h)]
        exact jsNumCmp_neg_nonpos_iff _ _
      refine (insertionSort_pairwise_geq (getMonthlyJ st) _ hcmp _).imp ?_
      intro a b hab hb
      exact (getMonthlyJ_inf_iff st a).mp
        (JNum.leq_inf hab ((getMonthlyJ_inf_iff st b).mpr hb))

/-- An unpriced record (no price fields at all), for the C5 scenario. -/
def recNull5 : RawPriceRecord := rawOf "A" "unpriced" none none

/-- A priced record (2 in, 4 out), for the C5 scenario. -/
def recPriced5 : RawPriceRecord := rawOf "A" "priced" (some 2) (some 4)

/-- The C5 scenario: sort by derived cost, descending, no top-N bound. -/
def stNull5 : QueryState :=
  { data := [normalize recPriced5, normalize recNull5]
    filterText := ""
    sortKey := some SortKey.cost
    sortDir := .desc
    useBatch := false
    globalTokens := ⟨1000000, 0, 1000000⟩
    cacheFactor := some (1/2)
    rateValue := 0
    topN := none }

/-- The same scenario sorted ascending, for the C5 witness. -/
def stNull5asc : QueryState := { stNull5 with sortDir := .asc }

lemma getCostJ_priced5 : getCostJ stNull5 (normalize recPriced5) = JNum.fin 6 := by
  have hc : calcCostWithCached stNull5.globalTokens (normalize recPriced5)
      stNull5.useBatch stNull5.cacheFactor
      = some ((1000000 : ℚ) / 1000000 * 2 + 0 / 1000000 * 2 * (1/2)
        + 1000000 / 1000000 * 4) := rfl
  unfold getCostJ
  rw [hc]
  norm_num

/-- C5 counterexample: sorting by derived cost in descending direction puts
the `null`-cost (infinitely expensive) record *before* the priced record, not
after it. -/
theorem null_cost_desc_counterexample :
    applyFilterSort stNull5 = [normalize recNull5, normalize recPriced5]
    ∧ getCostJ stNull5 (normalize recNull5) = JNum.inf
    ∧ getCostJ stNull5 (normalize recPriced5) = JNum.fin 6 := by
  refine ⟨?_, rfl, getCostJ_priced5⟩
  have heff : effCmp stNull5 SortKey.cost (normalize recPriced5) (normalize recNull5)
      = 1 := by
    have hstep : effCmp stNull5 SortKey.cost (normalize recPriced5) (normalize recNull5)
        = -(jsNumCmp (getCostJ stNull5 (normalize recPriced5))
            (getCostJ stNull5 (normalize recNull5))) := rfl
    rw [hstep, getCostJ_priced5]
    have hnull : getCostJ stNull5 (normalize recNull5) = JNum.inf := rfl
    rw [hnull]
    norm_num [jsNumCmp]
  have hpipe : applyFilterSort stNull5
      = List.insertionSort (fun a b => effCmp stNull5 SortKey.cost a b ≤ 0)
          [normalize recPriced5, normalize recNull5] := rfl
  rw [hpipe, insertionSort_pair]
  rw [if_neg (by rw [heff]; norm_num)]

/-- Witness for the amended C5 theorem at the concrete ascending scenario. -/
theorem derived_sort_null_placement_witness :
    (stNull5asc.sortDir = SortDir.asc →
      (applyFilterSort stNull5asc).Pairwise
        (fun a b => getCostJ stNull5asc a = JNum.inf → getCostJ stNull5asc b = JNum.inf))
    ∧ (stNull5asc.sortDir = SortDir.desc →
      (applyFilterSort stNull5asc).Pairwise
        (fun a b => getCostJ stNull5asc b = JNum.inf → getCostJ stNull5asc a = JNum.inf)) :=
  derived_sort_null_placement stNull5asc SortKey.cost rfl (Or.inl rfl) rfl

end LlmPricing
